import Mathlib

/-!
Verification of the news-bot pipeline: shallow embedding of the dedup module
(`dedup.ts`), the relevance module (`relevance.ts`) and the ranker
(`ranker.ts`), together with theorems settling the spec claims.

Conventions of the embedding:
* JS strings are Lean `String`s (operations modelled character-wise);
* JS numbers carrying epoch milliseconds are `ℤ`;
* JS fractional arithmetic is `ℚ`; a guarded JS division `d > 0 ? n / d : 0`
  on natural counts is written `mkRat n d` (equal to `n / d` for `d ≠ 0`
  and to `0` for `d = 0`);
* `Math.round` is Mathlib's `round` (both are `⌊x + 1/2⌋`);
* the file-system state read by `loadSentCache` is an explicit `CacheState`;
* network lookups are explicit oracles, `Option`-valued where a promise
  may be rejected.
-/

/-- JS `String.prototype.toLowerCase`, character-wise, for the characters the
dedup/relevance character classes can mention (ASCII letters and the accented
letters of the regexes). Other characters are unchanged. -/
def jsToLower (c : Char) : Char :=
  if 'A' ≤ c ∧ c ≤ 'Z' then Char.ofNat (c.toNat + 32)
  else if c = 'Á' then 'á' else if c = 'À' then 'à'
  else if c = 'Â' then 'â' else if c = 'Ã' then 'ã'
  else if c = 'É' then 'é' else if c = 'È' then 'è'
  else if c = 'Ê' then 'ê' else if c = 'Í' then 'í'
  else if c = 'Ï' then 'ï' else if c = 'Ó' then 'ó'
  else if c = 'Ô' then 'ô' else if c = 'Õ' then 'õ'
  else if c = 'Ö' then 'ö' else if c = 'Ú' then 'ú'
  else if c = 'Ç' then 'ç' else if c = 'Ñ' then 'ñ'
  else c

/-- The JS regex class `\s` (the whitespace characters that occur in feeds). -/
def isJsSpace (c : Char) : Bool :=
  c = ' ' || c = '\t' || c = '\n' || c = '\r' || c = '\x0b' || c = '\x0c'

/-- The characters of the regex class `[''"""\-–—]` in `normalizeTitle`. -/
def PUNCT_CHARS : List Char :=
  ['‘', '’', '"', '“', '”', '-', '–', '—']

/-- The accented letters of the class `[a-záàâãéèêíïóôõöúçñ0-9\s]`. -/
def ACCENTED_CHARS : List Char :=
  ['á', 'à', 'â', 'ã', 'é', 'è', 'ê', 'í', 'ï', 'ó', 'ô', 'õ', 'ö', 'ú', 'ç', 'ñ']

/-- Membership in the regex class `[a-záàâãéèêíïóôõöúçñ0-9\s]` with the `i`
flag (uppercase counterparts included). -/
def keptChar (c : Char) : Bool :=
  ('a' ≤ c && c ≤ 'z') || ('A' ≤ c && c ≤ 'Z') || ('0' ≤ c && c ≤ '9')
    || ACCENTED_CHARS.contains c || ACCENTED_CHARS.contains (jsToLower c)
    || isJsSpace c

/-- Collapse runs of spaces to a single space (the `\s+ → ' '` replacement,
applied after every whitespace character has been mapped to `' '`). -/
def squeezeSpaces : List Char → List Char
  | [] => []
  | [c] => [c]
  | c :: d :: rest =>
    if c = ' ' && d = ' ' then squeezeSpaces (d :: rest)
    else c :: squeezeSpaces (d :: rest)

/-- JS `String.prototype.trim` on a string whose whitespace is only `' '`. -/
def trimSpaces (l : List Char) : List Char :=
  ((l.dropWhile (· = ' ')).reverse.dropWhile (· = ' ')).reverse

/-- Embedding of `dedup.ts` `normalizeTitle`: lowercase, punctuation → space, characters
outside `[a-záàâãéèêíïóôõöúçñ0-9\s]` → space, collapse whitespace, trim. -/
def normalizeTitle (title : String) : String :=
  let step1 := title.toList.map jsToLower
  let step2 := step1.map (fun c => if PUNCT_CHARS.contains c then ' ' else c)
  let step3 := step2.map (fun c => if keptChar c then c else ' ')
  let step4 := step3.map (fun c => if isJsSpace c then ' ' else c)
  String.mk (trimSpaces (squeezeSpaces step4))

/-- JS `String.prototype.split(' ')`: split on every single space, keeping
empty fragments (they are dropped by the `length > 2` filters downstream). -/
def splitOnSpace (l : List Char) : List String :=
  go [] l
where
  go (cur : List Char) : List Char → List String
    | [] => [String.mk cur.reverse]
    | c :: rest =>
      if c = ' ' then String.mk cur.reverse :: go [] rest
      else go (c :: cur) rest

/-- Embedding of `dedup.ts` `DEDUP_STOP_WORDS`. -/
def DEDUP_STOP_WORDS : List String := [
  -- EN
  "a", "an", "the", "is", "are", "was", "were", "be", "been", "to", "of",
  "in", "for", "on", "with", "at", "by", "from", "as", "and", "but", "or",
  "it", "its", "this", "that", "has", "have", "had", "will", "not", "no",
  "can", "do", "does", "did", "says", "said", "new", "how", "what", "why",
  "who", "when", "where", "after", "over", "up", "out", "into", "about",
  -- PT
  "de", "da", "do", "dos", "das", "em", "no", "na", "nos", "nas",
  "um", "uma", "por", "para", "com", "sem", "que", "se", "mais", "mas",
  "seu", "sua", "foi", "ser", "ter", "diz", "são", "tem", "vai",
  "sobre", "entre", "como", "já", "até", "não", "há", "os", "as"]

/-- Embedding of `dedup.ts` `extractSignificantWords`: normalized title split on spaces,
keeping words of length > 2 that are not stop words. -/
def extractSignificantWords (title : String) : List String :=
  (splitOnSpace (normalizeTitle title).toList).filter
    (fun w => 2 < w.length && !(DEDUP_STOP_WORDS.contains w))

/-- Embedding of `dedup.ts` `jaccardSimilarity` on word lists: `0` if either deduplicated
set is empty, else `|A ∩ B| / |A ∪ B|` (the JS `union > 0 ? i / union : 0`
is `mkRat i union`). -/
def jaccardSimilarity (wordsA wordsB : List String) : ℚ :=
  let setA := wordsA.dedup
  let setB := wordsB.dedup
  if setA.length = 0 ∨ setB.length = 0 then 0
  else
    let intersection := (setA.filter (fun w => setB.contains w)).length
    let union := ((setA ++ setB).dedup).length
    mkRat intersection union

/-- Embedding of `dedup.ts` `overlapCoefficient` on word lists: `0` if either deduplicated
set is empty, else `|A ∩ B| / min |A| |B|`. -/
def overlapCoefficient (wordsA wordsB : List String) : ℚ :=
  let setA := wordsA.dedup
  let setB := wordsB.dedup
  if setA.length = 0 ∨ setB.length = 0 then 0
  else
    let intersection := (setA.filter (fun w => setB.contains w)).length
    mkRat intersection (min setA.length setB.length)

/-- Embedding of `dedup.ts` `areSimilar`: strict Jaccard test when either word list has at
most 2 entries, else the three-way threshold surface. -/
def areSimilar (titleA titleB : String) : Bool :=
  let wordsA := extractSignificantWords titleA
  let wordsB := extractSignificantWords titleB
  if wordsA.length ≤ 2 ∨ wordsB.length ≤ 2 then
    decide (mkRat 6 10 ≤ jaccardSimilarity wordsA wordsB)
  else
    let jaccard := jaccardSimilarity wordsA wordsB
    let overlap := overlapCoefficient wordsA wordsB
    decide (mkRat 35 100 ≤ jaccard) || decide (mkRat 65 100 ≤ overlap)
      || (decide (mkRat 25 100 ≤ jaccard) && decide (mkRat 5 10 ≤ overlap))

/-- Embedding of `types.ts` `ScoreBreakdown` (JS numbers here are integer scores). -/
structure ScoreBreakdown where
  crossFeedScore : ℤ
  recencyScore : ℤ
  trendingScore : ℤ
  socialScore : ℤ
  totalScore : ℤ
  deriving DecidableEq, Repr

/-- Embedding of `types.ts` `NewsItem`; `publishedAt` is the epoch-millisecond value of
the JS `Date`. -/
structure NewsItem where
  title : String
  link : String
  source : String
  publishedAt : ℤ
  description : String
  relevanceScore : ℤ
  scoreBreakdown : ScoreBreakdown
  deriving DecidableEq, Repr

/-- The greedy keep-first-non-duplicate loop shared by both dedup passes:
walk the list, keep an item exactly when `dup item k` is false for every
already-kept `k` (`kept` accumulates in order, items are pushed at the end). -/
def greedyKeep (dup : NewsItem → NewsItem → Bool) :
    List NewsItem → List NewsItem → List NewsItem
  | kept, [] => kept
  | kept, item :: rest =>
    if kept.any (fun k => dup item k) then greedyKeep dup kept rest
    else greedyKeep dup (kept ++ [item]) rest

/-- The duplicate test of `deduplicateBySimilarity`: `areSimilar` on titles
(the candidate first, the kept item second, as in the source). -/
def dedupDup (item kept : NewsItem) : Bool :=
  areSimilar item.title kept.title

/-- The stable descending comparator `(a, b) => b.relevanceScore -
a.relevanceScore` of the JS `Array.prototype.sort` calls. -/
def byScoreDesc (a b : NewsItem) : Bool :=
  decide (b.relevanceScore ≤ a.relevanceScore)

/-- Embedding of `dedup.ts` `deduplicateBySimilarity`: sort by score descending (stable),
then keep each item not `areSimilar` to any already-kept item. -/
def deduplicateBySimilarity (items : List NewsItem) : List NewsItem :=
  if items.length = 0 then []
  else greedyKeep dedupDup [] (items.mergeSort byScoreDesc)

/-- The duplicate test of `finalDedup` on significant-word lists:
`jaccard ≥ 0.3 || overlap ≥ 0.6 || (jaccard ≥ 0.2 && overlap ≥ 0.45)`. -/
def finalDupWords (wordsA wordsB : List String) : Bool :=
  decide (mkRat 3 10 ≤ jaccardSimilarity wordsA wordsB)
    || decide (mkRat 6 10 ≤ overlapCoefficient wordsA wordsB)
    || (decide (mkRat 2 10 ≤ jaccardSimilarity wordsA wordsB)
        && decide (mkRat 45 100 ≤ overlapCoefficient wordsA wordsB))

/-- The duplicate test of `finalDedup` on items (words of the candidate
against the cached words of the kept item). -/
def finalDup (item kept : NewsItem) : Bool :=
  finalDupWords (extractSignificantWords item.title)
    (extractSignificantWords kept.title)

/-- Embedding of `dedup.ts` `finalDedup`: keep each item, in input order, that is not a
`finalDup`-duplicate of any already-kept item. -/
def finalDedup (items : List NewsItem) : List NewsItem :=
  if items.length = 0 then []
  else greedyKeep finalDup [] items

/-- Embedding of `relevance.ts` `STOP_WORDS`. -/
def STOP_WORDS : List String := [
  "a", "an", "the", "is", "are", "was", "were", "be", "been", "being",
  "have", "has", "had", "do", "does", "did", "will", "would", "could",
  "should", "may", "might", "shall", "can", "need", "dare", "ought",
  "used", "to", "of", "in", "for", "on", "with", "at", "by", "from",
  "as", "into", "through", "during", "before", "after", "above", "below",
  "between", "out", "off", "over", "under", "again", "further", "then",
  "once", "and", "but", "or", "nor", "not", "so", "yet", "both",
  "either", "neither", "each", "every", "all", "any", "few", "more",
  "most", "other", "some", "such", "no", "only", "own", "same", "than",
  "too", "very", "just", "because", "about", "up", "it", "its", "this",
  "that", "these", "those", "he", "she", "they", "we", "you", "i", "me",
  "my", "your", "his", "her", "their", "our", "what", "which", "who",
  "when", "where", "why", "how", "if", "while", "new", "says", "said",
  -- PT-BR stop words
  "de", "da", "do", "dos", "das", "em", "no", "na", "nos", "nas",
  "um", "uma", "uns", "umas", "por", "para", "com", "sem", "sob",
  "sobre", "entre", "que", "se", "mais", "mas", "como", "seu", "sua",
  "seus", "suas", "ele", "ela", "eles", "elas", "isso", "isto",
  "aquilo", "este", "esta", "esse", "essa", "já", "ainda", "também",
  "foi", "ser", "ter", "está", "são", "tem", "vai", "pode", "diz",
  "após", "ano", "dia", "vez", "até", "não", "há"]

/-- Embedding of `relevance.ts` `extractKeywords`: lowercase, characters outside
`[a-záàâãéèêíïóôõöúçñ0-9\s]` → space, split on whitespace (`/\s+/`), keep
words of length > 2 that are not stop words. -/
def extractKeywords (text : String) : List String :=
  let step1 := text.toList.map jsToLower
  let step2 := step1.map (fun c => if keptChar c then c else ' ')
  let step3 := step2.map (fun c => if isJsSpace c then ' ' else c)
  (splitOnSpace step3).filter
    (fun w => 2 < w.length && !(STOP_WORDS.contains w))

/-- The similarity test of the inner `j` loop of `computeCrossFeedScores`:
`overlap / kwA.size` where `overlap` counts the keywords of the candidate
title lying in `kwA`, and `0` when `kwA` is empty
(`kwA.size > 0 ? overlap / kwA.size : 0`). -/
def kwSimilarity (kwA : List String) (titleB : String) : ℚ :=
  let kwB := extractKeywords titleB
  let overlap := (kwB.filter (fun w => kwA.contains w)).length
  if 0 < kwA.length then mkRat overlap kwA.length else 0

/-- The inner `j` loop of `computeCrossFeedScores`: walk the whole item list,
skip items of the document's own source or of an already-matched source, and
when the keyword similarity with `kwA` reaches `0.4` count the source and
add it to `matched`. -/
def crossCountAux (srcA : String) (kwA : List String) :
    List NewsItem → List String → ℕ → ℕ
  | [], _, acc => acc
  | itemJ :: rest, matched, acc =>
    if itemJ.source = srcA ∨ matched.contains itemJ.source then
      crossCountAux srcA kwA rest matched acc
    else if mkRat 4 10 ≤ kwSimilarity kwA itemJ.title then
      crossCountAux srcA kwA rest (matched ++ [itemJ.source]) (acc + 1)
    else
      crossCountAux srcA kwA rest matched acc

/-- The `0 / 30 / 40 / 50` step mapping of `computeCrossFeedScores`
(`crossCount >= 3 ? 50 : crossCount >= 2 ? 40 : crossCount >= 1 ? 30 : 0`). -/
def crossFeedStep (crossCount : ℕ) : ℤ :=
  if 3 ≤ crossCount then 50 else if 2 ≤ crossCount then 40
  else if 1 ≤ crossCount then 30 else 0

/-- The cross-feed score of one document against the candidate list
(`matchedSources` starts holding the document's own source). -/
def crossFeedScoreOf (items : List NewsItem) (item : NewsItem) : ℤ :=
  crossFeedStep
    (crossCountAux item.source ((extractKeywords item.title).dedup)
      items [item.source] 0)

/-- Embedding of `relevance.ts` `computeCrossFeedScores`, as the position-aligned list of
per-document scores (the JS `Map<number, number>` keyed by index). -/
def computeCrossFeedScores (items : List NewsItem) : List ℤ :=
  items.map (fun item => crossFeedScoreOf items item)

/-- The per-item keyword sets of `computeTrendingScores` (unique keywords of
`title + ' ' + description`). -/
def itemKeywordSets (items : List NewsItem) : List (List String) :=
  items.map (fun item =>
    (extractKeywords (item.title ++ " " ++ item.description)).dedup)

/-- Embedding of `keywordFreq.get(kw)`: the number of items whose keyword set holds `kw`
(each item counts once, the source inserts per-item unique keywords). -/
def keywordFreq (kwSets : List (List String)) (kw : String) : ℕ :=
  kwSets.countP (fun kws => kws.contains kw)

/-- Embedding of `relevance.ts` `computeTrendingScores`: a keyword is trending when it
appears in at least 3 items; each trending keyword of an item is worth 5
points, capped at 30. -/
def computeTrendingScores (items : List NewsItem) : List ℤ :=
  let kwSets := itemKeywordSets items
  kwSets.map (fun kws =>
    let trendingHits := (kws.filter (fun kw => 3 ≤ keywordFreq kwSets kw)).length
    min (trendingHits * 5 : ℤ) 30)

/-- The age of a publication timestamp in hours
(`(now - item.publishedAt.getTime()) / (1000 * 60 * 60)`, times in ms). -/
def ageHours (now publishedAt : ℤ) : ℚ :=
  ((now - publishedAt : ℤ) : ℚ) / (1000 * 60 * 60)

/-- The per-item recency score of `computeRecencyScores`:
`Math.round(Math.max(0, 20 * (1 - ageHours / 24)))`. -/
def recencyScore (now publishedAt : ℤ) : ℤ :=
  round (max 0 (20 * (1 - ageHours now publishedAt / 24)))

/-- Embedding of `relevance.ts` `computeRecencyScores` as a position-aligned list. -/
def computeRecencyScores (now : ℤ) (items : List NewsItem) : List ℤ :=
  items.map (fun item => recencyScore now item.publishedAt)

/-- Embedding of `relevance.ts` `getSocialScore` on the settled results of the two social
lookups (`checkHackerNews` / `checkReddit` catch internally and resolve to
`(0, 0)` on error, modelled by the oracle returning `(0, 0)`):
`min (hn.score + hn.comments*2 + reddit.score + reddit.comments*2) 50`. -/
def getSocialScore (hn reddit : ℕ × ℕ) : ℕ :=
  min (hn.1 + hn.2 * 2 + reddit.1 + reddit.2 * 2) 50

/-- The local (pre-social) score of `computeRelevance`:
`crossFeed + trending + recency` at one index. -/
def localScore (now : ℤ) (items : List NewsItem) (i : ℕ) : ℤ :=
  ((computeCrossFeedScores items).getD i 0)
    + ((computeTrendingScores items).getD i 0)
    + ((computeRecencyScores now items).getD i 0)

/-- The pre-scored index list of `computeRelevance` (`(index, localScore)`
pairs in input order, before the sort). -/
def preScored (now : ℤ) (items : List NewsItem) : List (ℕ × ℤ) :=
  (List.range items.length).map (fun i => (i, localScore now items i))

/-- The stable descending comparator `(a, b) => b.localScore - a.localScore`
of the pre-score sort. -/
def byLocalScoreDesc (a b : ℕ × ℤ) : Bool :=
  decide (b.2 ≤ a.2)

/-- The indices of the top-20 candidates by pre-score
(`preScored.sort(...).slice(0, 20)`). -/
def topCandidateIdx (now : ℤ) (items : List NewsItem) : List ℕ :=
  (((preScored now items).mergeSort byLocalScoreDesc).take 20).map (·.1)

/-- The social-score map of `computeRelevance`: an entry exists for an index
exactly when it is a top-20 candidate and its `getSocialScore` promise
settled fulfilled (`social` is the oracle giving the settled value of
`getSocialScore(item.link)`, `none` for a rejected promise; batching into
groups of 5 with a delay only paces the requests and is dropped). -/
def socialScores (social : String → Option ℕ) (now : ℤ)
    (items : List NewsItem) : List (ℕ × ℕ) :=
  (topCandidateIdx now items).filterMap (fun i =>
    match items[i]? with
    | some item => (social item.link).map (fun s => (i, s))
    | none => none)

/-- Embedding of the `enriched` array of `relevance.ts` `computeRelevance`
as built by `items.map(...)`, in input order: document `i` paired with its
score breakdown (`socialScores.get(i) || 0`). -/
def enrichedItems (social : String → Option ℕ) (now : ℤ)
    (items : List NewsItem) : List NewsItem :=
  let crossFeed := computeCrossFeedScores items
  let trending := computeTrendingScores items
  let recency := computeRecencyScores now items
  let socials := socialScores social now items
  items.mapIdx (fun i item =>
    let cf := crossFeed.getD i 0
    let tr := trending.getD i 0
    let rc := recency.getD i 0
    let sc : ℤ := match (socials.find? (fun p => p.1 = i)) with
      | some p => (p.2 : ℤ)
      | none => 0
    let total := cf + tr + rc + sc
    { item with
      relevanceScore := total
      scoreBreakdown :=
        { crossFeedScore := cf, recencyScore := rc, trendingScore := tr,
          socialScore := sc, totalScore := total } })

/-- Embedding of `relevance.ts` `computeRelevance`: local scores, social
lookups for the top-20 pre-scored candidates, the enriched items — and the
final log statement, whose template expression calls
`enriched.sort((a, b) => b.relevanceScore - a.relevanceScore)` in place
before `return enriched`, so the function returns the enriched items stably
sorted by total score descending. -/
def computeRelevance (social : String → Option ℕ) (now : ℤ)
    (items : List NewsItem) : List NewsItem :=
  if items.length = 0 then []
  else (enrichedItems social now items).mergeSort byScoreDesc

/-- The persisted `.sent-cache.json` state as seen by `loadSentCache`:
missing file, unreadable/corrupt file, or a readable record with its url
list and write timestamp (ms). -/
inductive CacheState where
  | missing : CacheState
  | unreadable : CacheState
  | record : List String → ℤ → CacheState

/-- Embedding of `ranker.ts` `loadSentCache`: the empty set when the file is missing or
unreadable, or when the record is older than 48 hours; otherwise its urls. -/
def loadSentCache (st : CacheState) (now : ℤ) : List String :=
  match st with
  | CacheState.missing => []
  | CacheState.unreadable => []
  | CacheState.record urls timestamp =>
    if 48 * 60 * 60 * 1000 < now - timestamp then [] else urls

/-- Embedding of `ranker.ts` `normalizeUrl`: strip trailing slashes, lowercase. -/
def normalizeUrl (url : String) : String :=
  String.mk (((url.toList.reverse.dropWhile (· = '/')).reverse).map jsToLower)

/-- The filter predicate of `rankNews`: reject items whose normalized link is
in the sent cache, items older than `maxAgeHours`, and falsy (empty) links. -/
def rankFilter (sentCache : List String) (now : ℤ) (maxAgeHours : ℚ)
    (item : NewsItem) : Bool :=
  if sentCache.contains (normalizeUrl item.link) then false
  else if decide (maxAgeHours < ageHours now item.publishedAt) then false
  else if item.link = "" then false
  else true

/-- The `for` loop of `diversifiedPick`: stop at `maxItems` accepted, skip an
item once its source reached `maxPerSource` picks (`sourceCount` is the JS
`Map<string, number>` with `get(s) || 0` defaulting to 0). -/
def diversifiedPickAux (maxItems maxPerSource : ℕ) :
    List NewsItem → (String → ℕ) → List NewsItem → List NewsItem
  | result, _, [] => result
  | result, sourceCount, item :: rest =>
    if maxItems ≤ result.length then result
    else
      let count := sourceCount item.source
      if maxPerSource ≤ count then
        diversifiedPickAux maxItems maxPerSource result sourceCount rest
      else
        diversifiedPickAux maxItems maxPerSource (result ++ [item])
          (fun s => if s = item.source then count + 1 else sourceCount s) rest

/-- Embedding of `ranker.ts` `diversifiedPick` (default `maxPerSource = 3`). -/
def diversifiedPick (sorted : List NewsItem) (maxItems : ℕ)
    (maxPerSource : ℕ := 3) : List NewsItem :=
  diversifiedPickAux maxItems maxPerSource [] (fun _ => 0) sorted

/-- Embedding of `ranker.ts` `rankNews`: load the sent cache, filter, dedup by similarity,
sort by relevance descending, diversified pick (the final cache write is
state output and does not affect the returned list). -/
def rankNews (st : CacheState) (now : ℤ) (items : List NewsItem)
    (maxItems : ℕ) (maxAgeHours : ℚ) : List NewsItem :=
  let sentCache := loadSentCache st now
  let filtered := items.filter (rankFilter sentCache now maxAgeHours)
  let unique := deduplicateBySimilarity filtered
  let sorted := unique.mergeSort byScoreDesc
  diversifiedPick sorted maxItems

/-- Spec wording: `Jaccard(A,B) = |A∩B| / |A∪B|`, defined as 0 if either set
is empty. -/
def specJaccard (A B : Finset String) : ℚ :=
  if A = ∅ ∨ B = ∅ then 0 else ((A ∩ B).card : ℚ) / ((A ∪ B).card : ℚ)

/-- Spec wording: `Overlap(A,B) = |A∩B| / min(|A|,|B|)`, defined as 0 if
either set is empty. -/
def specOverlap (A B : Finset String) : ℚ :=
  if A = ∅ ∨ B = ∅ then 0 else ((A ∩ B).card : ℚ) / ((min A.card B.card : ℕ) : ℚ)

/-- The spec's decision surface for `areSimilar`, stated over the
deduplicated significant-word sets with the spec's `Jaccard`/`Overlap`:
short titles (≤ 2 significant words on either side) require Jaccard ≥ 0.6,
otherwise any of Jaccard ≥ 0.35, Overlap ≥ 0.65, or (Jaccard ≥ 0.25 and
Overlap ≥ 0.5). -/
def areSimilarSpec (titleA titleB : String) : Bool :=
  let wordsA := extractSignificantWords titleA
  let wordsB := extractSignificantWords titleB
  let J := specJaccard wordsA.toFinset wordsB.toFinset
  let O := specOverlap wordsA.toFinset wordsB.toFinset
  if wordsA.length ≤ 2 ∨ wordsB.length ≤ 2 then
    decide ((6 : ℚ)/10 ≤ J)
  else
    decide ((35 : ℚ)/100 ≤ J) || decide ((65 : ℚ)/100 ≤ O)
      || (decide ((25 : ℚ)/100 ≤ J) && decide ((5 : ℚ)/10 ≤ O))

/-- The spec's duplicate predicate for the final pass: Jaccard ≥ 0.3, or
Overlap ≥ 0.6, or (Jaccard ≥ 0.2 and Overlap ≥ 0.45), on the significant-word
sets. -/
def finalDupSpec (item kept : NewsItem) : Bool :=
  let A := (extractSignificantWords item.title).toFinset
  let K := (extractSignificantWords kept.title).toFinset
  decide ((3 : ℚ)/10 ≤ specJaccard A K) || decide ((6 : ℚ)/10 ≤ specOverlap A K)
    || (decide ((2 : ℚ)/10 ≤ specJaccard A K)
        && decide ((45 : ℚ)/100 ≤ specOverlap A K))

/-- The spec's description of the final pass: walk the input in order and
keep an item exactly when no already-kept item satisfies `finalDupSpec`. -/
def finalDedupSpec (items : List NewsItem) : List NewsItem :=
  greedyKeep finalDupSpec [] items

/-- The claim's set of corroborating sources for a document: the distinct
sources, other than the document's own, holding some document whose
title-keyword similarity with the document's keyword set reaches `0.4`. -/
def corroboratingSources (items : List NewsItem) (item : NewsItem) : Finset String :=
  ((items.filter (fun j => !(decide (j.source = item.source))
      && decide (mkRat 4 10 ≤ kwSimilarity ((extractKeywords item.title).dedup) j.title))).map
    (fun j => j.source)).toFinset

/-! ### Helper lemmas: the greedy keep loop -/

theorem greedyKeep_eq_append (dup : NewsItem → NewsItem → Bool) :
    ∀ (l kept : List NewsItem), ∃ t, greedyKeep dup kept l = kept ++ t ∧ t.Sublist l := by
  intro l
  induction l with
  | nil => intro kept; exact ⟨[], by simp [greedyKeep], List.Sublist.refl []⟩
  | cons item rest ih =>
    intro kept
    by_cases h : kept.any (fun k => dup item k) = true
    · obtain ⟨t, ht, hsub⟩ := ih kept
      exact ⟨t, by simp [greedyKeep, h, ht], hsub.cons item⟩
    · obtain ⟨t, ht, hsub⟩ := ih (kept ++ [item])
      refine ⟨item :: t, ?_, hsub.cons₂ item⟩
      have hstep : greedyKeep dup kept (item :: rest)
          = greedyKeep dup (kept ++ [item]) rest := by
        simp [greedyKeep, h]
      rw [hstep, ht, List.append_assoc]
      rfl

theorem greedyKeep_sublist (dup : NewsItem → NewsItem → Bool) (l : List NewsItem) :
    (greedyKeep dup [] l).Sublist l := by
  obtain ⟨t, ht, hsub⟩ := greedyKeep_eq_append dup l []
  simpa [ht] using hsub

theorem greedyKeep_pairwise (dup : NewsItem → NewsItem → Bool) :
    ∀ (l kept : List NewsItem),
      kept.Pairwise (fun a b => dup b a = false) →
      (greedyKeep dup kept l).Pairwise (fun a b => dup b a = false) := by
  intro l
  induction l with
  | nil => intro kept h; exact h
  | cons item rest ih =>
    intro kept h
    by_cases hany : kept.any (fun k => dup item k) = true
    · simpa [greedyKeep, hany] using ih kept h
    · have hall : ∀ k ∈ kept, dup item k = false := by
        intro k hk
        have := List.any_eq_false.mp (Bool.eq_false_iff.mpr hany) k hk
        simpa using this
      have hkept' : (kept ++ [item]).Pairwise (fun a b => dup b a = false) := by
        rw [List.pairwise_append]
        exact ⟨h, List.pairwise_singleton _ _,
          fun a ha b hb => by simp at hb; subst hb; exact hall a ha⟩
      simpa [greedyKeep, hany] using ih (kept ++ [item]) hkept'

theorem greedyKeep_fixpoint (dup : NewsItem → NewsItem → Bool) :
    ∀ (l kept : List NewsItem),
      l.Pairwise (fun a b => dup b a = false) →
      (∀ b ∈ l, ∀ a ∈ kept, dup b a = false) →
      greedyKeep dup kept l = kept ++ l := by
  intro l
  induction l with
  | nil => intro kept _ _; simp [greedyKeep]
  | cons item rest ih =>
    intro kept hpw hcross
    have hany : kept.any (fun k => dup item k) = false := by
      rw [List.any_eq_false]
      intro k hk
      simp [hcross item (by simp) k hk]
    rw [greedyKeep, if_neg (by simp [hany])]
    rw [ih (kept ++ [item]) (List.Pairwise.of_cons hpw) ?_]
    · simp
    · intro b hb a ha
      rcases List.mem_append.mp ha with ha' | ha'
      · exact hcross b (by simp [hb]) a ha'
      · simp at ha'; subst ha'
        exact (List.pairwise_cons.mp hpw).1 b hb

/-! ### Helper lemmas: the descending comparators -/

theorem byScoreDesc_trans : ∀ (a b c : NewsItem),
    byScoreDesc a b = true → byScoreDesc b c = true → byScoreDesc a c = true := by
  intro a b c hab hbc
  simp only [byScoreDesc, decide_eq_true_eq] at *
  exact le_trans hbc hab

theorem byScoreDesc_total : ∀ (a b : NewsItem),
    (byScoreDesc a b || byScoreDesc b a) = true := by
  intro a b
  simp only [byScoreDesc, Bool.or_eq_true, decide_eq_true_eq]
  exact le_total b.relevanceScore a.relevanceScore

/-! ### Idempotence of both dedup passes (C3 infrastructure) -/

theorem greedyKeep_idem (dup : NewsItem → NewsItem → Bool) (l : List NewsItem) :
    greedyKeep dup [] (greedyKeep dup [] l) = greedyKeep dup [] l := by
  have hpw := greedyKeep_pairwise dup l [] (List.Pairwise.nil)
  have := greedyKeep_fixpoint dup (greedyKeep dup [] l) [] hpw (by simp)
  simpa using this

theorem deduplicateBySimilarity_idem (items : List NewsItem) :
    deduplicateBySimilarity (deduplicateBySimilarity items) = deduplicateBySimilarity items := by
  by_cases h0 : items.length = 0
  · simp [deduplicateBySimilarity, h0]
  · have hinner : deduplicateBySimilarity items
        = greedyKeep dedupDup [] (items.mergeSort byScoreDesc) := by
      rw [deduplicateBySimilarity, if_neg h0]
    set o := greedyKeep dedupDup [] (items.mergeSort byScoreDesc) with ho
    rw [hinner]
    by_cases h1 : o.length = 0
    · rw [List.length_eq_zero] at h1
      rw [h1]
      simp [deduplicateBySimilarity]
    · rw [deduplicateBySimilarity, if_neg h1]
      have hsorted : o.Pairwise (fun a b => byScoreDesc a b = true) := by
        have hms : (items.mergeSort byScoreDesc).Pairwise
            (fun a b => byScoreDesc a b = true) :=
          List.sorted_mergeSort byScoreDesc_trans byScoreDesc_total items
        exact List.Pairwise.sublist
          (greedyKeep_sublist dedupDup (items.mergeSort byScoreDesc)) hms
      rw [List.mergeSort_of_sorted hsorted]
      have hpw : o.Pairwise (fun a b => dedupDup b a = false) :=
        greedyKeep_pairwise dedupDup (items.mergeSort byScoreDesc) [] List.Pairwise.nil
      simpa using greedyKeep_fixpoint dedupDup o [] hpw (by simp)

theorem finalDedup_idem (items : List NewsItem) :
    finalDedup (finalDedup items) = finalDedup items := by
  by_cases h0 : items.length = 0
  · simp [finalDedup, h0]
  · have hinner : finalDedup items = greedyKeep finalDup [] items := by
      rw [finalDedup, if_neg h0]
    set o := greedyKeep finalDup [] items with ho
    rw [hinner]
    by_cases h1 : o.length = 0
    · rw [List.length_eq_zero] at h1
      rw [h1]
      simp [finalDedup]
    · rw [finalDedup, if_neg h1, ho, greedyKeep_idem]

/-! ### Spec-side similarity metrics (the spec's wording, over keyword sets) -/

theorem list_contains_iff (l : List String) (w : String) :
    l.contains w = true ↔ w ∈ l :=
  List.elem_iff

theorem toFinset_dedup_eq (l : List String) : l.dedup.toFinset = l.toFinset := by
  ext x
  simp [List.mem_toFinset, List.mem_dedup]

theorem dedup_length_eq_card (l : List String) :
    l.dedup.length = l.toFinset.card :=
  (List.card_toFinset l).symm

theorem dedup_length_zero_iff (l : List String) :
    l.dedup.length = 0 ↔ l.toFinset = ∅ := by
  rw [dedup_length_eq_card, Finset.card_eq_zero]

theorem inter_length_eq_card (wa wb : List String) :
    ((wa.dedup.filter (fun w => wb.dedup.contains w)).length)
      = (wa.toFinset ∩ wb.toFinset).card := by
  have hnd : (wa.dedup.filter (fun w => wb.dedup.contains w)).Nodup :=
    List.Nodup.filter _ (List.nodup_dedup wa)
  have h1 : (wa.dedup.filter (fun w => wb.dedup.contains w)).length
      = (wa.dedup.filter (fun w => wb.dedup.contains w)).toFinset.card := by
    rw [List.card_toFinset, List.Nodup.dedup hnd]
  rw [h1]
  congr 1
  ext x
  simp only [List.mem_toFinset, List.mem_filter, List.mem_dedup, Finset.mem_inter,
    list_contains_iff]

theorem union_length_eq_card (wa wb : List String) :
    (((wa.dedup ++ wb.dedup).dedup).length) = (wa.toFinset ∪ wb.toFinset).card := by
  rw [← List.card_toFinset]
  congr 1
  rw [List.toFinset_append, toFinset_dedup_eq, toFinset_dedup_eq]

theorem jaccardSimilarity_eq_spec (wa wb : List String) :
    jaccardSimilarity wa wb = specJaccard wa.toFinset wb.toFinset := by
  rw [jaccardSimilarity, specJaccard]
  by_cases h : wa.dedup.length = 0 ∨ wb.dedup.length = 0
  · rw [if_pos h, if_pos]
    rcases h with h | h
    · exact Or.inl ((dedup_length_zero_iff wa).mp h)
    · exact Or.inr ((dedup_length_zero_iff wb).mp h)
  · rw [if_neg h, if_neg]
    · rw [Rat.mkRat_eq_div, inter_length_eq_card, union_length_eq_card]
      push_cast
      ring
    · rw [not_or] at h ⊢
      exact ⟨fun he => h.1 ((dedup_length_zero_iff wa).mpr he),
        fun he => h.2 ((dedup_length_zero_iff wb).mpr he)⟩

theorem overlapCoefficient_eq_spec (wa wb : List String) :
    overlapCoefficient wa wb = specOverlap wa.toFinset wb.toFinset := by
  rw [overlapCoefficient, specOverlap]
  by_cases h : wa.dedup.length = 0 ∨ wb.dedup.length = 0
  · rw [if_pos h, if_pos]
    rcases h with h | h
    · exact Or.inl ((dedup_length_zero_iff wa).mp h)
    · exact Or.inr ((dedup_length_zero_iff wb).mp h)
  · rw [if_neg h, if_neg]
    · rw [Rat.mkRat_eq_div, inter_length_eq_card,
        dedup_length_eq_card wa, dedup_length_eq_card wb]
      push_cast
      ring
    · rw [not_or] at h ⊢
      exact ⟨fun he => h.1 ((dedup_length_zero_iff wa).mpr he),
        fun he => h.2 ((dedup_length_zero_iff wb).mpr he)⟩

theorem specJaccard_self (A : Finset String) (h : A ≠ ∅) : specJaccard A A = 1 := by
  rw [specJaccard, if_neg (by simp [h])]
  rw [Finset.inter_self, Finset.union_self]
  have : (0 : ℚ) < (A.card : ℚ) := by
    have := Finset.card_pos.mpr (Finset.nonempty_iff_ne_empty.mpr h)
    exact_mod_cast this
  field_simp

theorem mkRat_6_10 : mkRat 6 10 = (6 : ℚ)/10 := by
  rw [Rat.mkRat_eq_div]; push_cast; ring

theorem mkRat_35_100 : mkRat 35 100 = (35 : ℚ)/100 := by
  rw [Rat.mkRat_eq_div]; push_cast; ring

theorem mkRat_65_100 : mkRat 65 100 = (65 : ℚ)/100 := by
  rw [Rat.mkRat_eq_div]; push_cast; ring

theorem mkRat_25_100 : mkRat 25 100 = (25 : ℚ)/100 := by
  rw [Rat.mkRat_eq_div]; push_cast; ring

theorem mkRat_5_10 : mkRat 5 10 = (5 : ℚ)/10 := by
  rw [Rat.mkRat_eq_div]; push_cast; ring

theorem mkRat_3_10 : mkRat 3 10 = (3 : ℚ)/10 := by
  rw [Rat.mkRat_eq_div]; push_cast; ring

theorem mkRat_2_10 : mkRat 2 10 = (2 : ℚ)/10 := by
  rw [Rat.mkRat_eq_div]; push_cast; ring

theorem mkRat_45_100 : mkRat 45 100 = (45 : ℚ)/100 := by
  rw [Rat.mkRat_eq_div]; push_cast; ring

theorem mkRat_4_10 : mkRat 4 10 = (4 : ℚ)/10 := by
  rw [Rat.mkRat_eq_div]; push_cast; ring

theorem greedyKeep_congr (dup₁ dup₂ : NewsItem → NewsItem → Bool)
    (h : ∀ a b, dup₁ a b = dup₂ a b) :
    ∀ (l kept : List NewsItem), greedyKeep dup₁ kept l = greedyKeep dup₂ kept l := by
  intro l
  induction l with
  | nil => intro kept; rfl
  | cons item rest ih =>
    intro kept
    have hany : (kept.any fun k => dup₁ item k) = (kept.any fun k => dup₂ item k) := by
      congr 1
      funext k
      exact h item k
    by_cases hc : (kept.any fun k => dup₁ item k) = true
    · rw [greedyKeep, if_pos hc, greedyKeep, if_pos (hany ▸ hc), ih]
    · rw [greedyKeep, if_neg hc, greedyKeep, if_neg (hany ▸ hc), ih]

theorem finalDup_eq_spec (a k : NewsItem) : finalDup a k = finalDupSpec a k := by
  rw [finalDup, finalDupWords, finalDupSpec]
  rw [jaccardSimilarity_eq_spec, overlapCoefficient_eq_spec,
    mkRat_3_10, mkRat_6_10, mkRat_2_10, mkRat_45_100]

/-- C4: `areSimilar` decides exactly the spec's threshold surface: with at
most 2 significant words on either side it is Jaccard ≥ 0.6, otherwise
Jaccard ≥ 0.35 or Overlap ≥ 0.65 or (Jaccard ≥ 0.25 and Overlap ≥ 0.5),
where Jaccard and Overlap live on the deduplicated significant-word sets
and are 0 when either set is empty. -/
theorem C4_areSimilar_decides_spec_surface (titleA titleB : String) :
    areSimilar titleA titleB = areSimilarSpec titleA titleB := by
  rw [areSimilar, areSimilarSpec]
  rw [jaccardSimilarity_eq_spec, overlapCoefficient_eq_spec,
    mkRat_6_10, mkRat_35_100, mkRat_65_100, mkRat_25_100, mkRat_5_10]

/-- C2 counterexample: the titles are identical (both empty, with empty
significant-word set), yet `areSimilar` returns `false`, because the
short-title branch compares `Jaccard = 0` against `0.6`. -/
theorem C2_counterexample_empty_title :
    areSimilar "" "" = false := by decide

/-- C2 (amended): for every title whose significant-word set is non-empty,
`areSimilar` on the identical pair returns `true` (Jaccard of a non-empty
set with itself is 1, above every threshold); titles with no significant
words are the only identical pairs reported dissimilar. -/
theorem C2_areSimilar_of_identical_titles (t : String)
    (h : extractSignificantWords t ≠ []) : areSimilar t t = true := by
  have hA : (extractSignificantWords t).toFinset ≠ ∅ := by
    intro he
    exact h ((List.toFinset_eq_empty_iff _).mp he)
  have hJ : jaccardSimilarity (extractSignificantWords t)
      (extractSignificantWords t) = 1 := by
    rw [jaccardSimilarity_eq_spec]
    exact specJaccard_self _ hA
  rw [areSimilar, hJ]
  by_cases hlen : (extractSignificantWords t).length ≤ 2
    ∨ (extractSignificantWords t).length ≤ 2
  · rw [if_pos hlen, mkRat_6_10]
    norm_num
  · rw [if_neg hlen, mkRat_35_100]
    have : ((35 : ℚ)/100 ≤ 1) := by norm_num
    simp [this]

/-- C2 witness: a concrete title with a non-empty significant-word set. -/
theorem C2_witness :
    extractSignificantWords "abc abd" ≠ [] ∧ areSimilar "abc abd" "abc abd" = true :=
  ⟨by decide, C2_areSimilar_of_identical_titles "abc abd" (by decide)⟩

/-- C3: both deduplication passes are idempotent: applying
`deduplicateBySimilarity` or `finalDedup` to its own output returns that
output unchanged. -/
theorem C3_dedup_passes_idempotent (items : List NewsItem) :
    deduplicateBySimilarity (deduplicateBySimilarity items) = deduplicateBySimilarity items
      ∧ finalDedup (finalDedup items) = finalDedup items :=
  ⟨deduplicateBySimilarity_idem items, finalDedup_idem items⟩

/-- C7: `finalDedup` returns a subsequence of its input in the original
order, and it keeps an item exactly when no earlier-kept item satisfies the
spec predicate (Jaccard ≥ 0.3, or Overlap ≥ 0.6, or Jaccard ≥ 0.2 and
Overlap ≥ 0.45) — i.e. it equals the spec's greedy pass. -/
theorem C7_finalDedup_order_preserving_greedy (items : List NewsItem) :
    (finalDedup items).Sublist items ∧ finalDedup items = finalDedupSpec items := by
  constructor
  · by_cases h0 : items.length = 0
    · rw [List.length_eq_zero] at h0
      simp [finalDedup, h0]
    · rw [finalDedup, if_neg h0]
      exact greedyKeep_sublist finalDup items
  · by_cases h0 : items.length = 0
    · rw [List.length_eq_zero] at h0
      subst h0
      rfl
    · rw [finalDedup, if_neg h0, finalDedupSpec]
      exact greedyKeep_congr finalDup finalDupSpec finalDup_eq_spec items []

/-! ### Recency score lemmas (C6, C10) -/

theorem round_mono_rat {x y : ℚ} (h : x ≤ y) : round x ≤ round y := by
  rw [round_eq, round_eq]
  exact Int.floor_mono (by linarith)

theorem round_twenty : round (20 : ℚ) = 20 := by
  rw [round_eq]; norm_num

theorem round_max_zero (x : ℚ) : round (max 0 x) = max 0 (round x) := by
  rcases le_total x 0 with h | h
  · rw [max_eq_left h]
    have hr : round x ≤ 0 := by
      have := round_mono_rat h
      simpa using this
    rw [max_eq_left hr, round_zero]
  · rw [max_eq_right h]
    have hr : 0 ≤ round x := by
      have := round_mono_rat h
      simpa using this
    rw [max_eq_right hr]

/-- C9: `loadSentCache` yields the empty url set when the persisted record is
missing, when reading or parsing it fails, and when its timestamp is more
than 48 hours old — so a stale or unreadable cache never blocks ranking and
an item delivered more than 48 hours ago is eligible again. -/
theorem C9_loadSentCache_stale_or_failed_empty (urls : List String) (ts now : ℤ)
    (h : 48 * 60 * 60 * 1000 < now - ts) :
    loadSentCache CacheState.missing now = []
    ∧ loadSentCache CacheState.unreadable now = []
    ∧ loadSentCache (CacheState.record urls ts) now = [] := by
  refine ⟨rfl, rfl, ?_⟩
  rw [loadSentCache, if_pos h]

/-- C9 witness: a record written 49 hours ago loads as the empty set, so its
url is deliverable again. -/
theorem C9_witness :
    loadSentCache (CacheState.record ["http://x"] 0) (49 * 60 * 60 * 1000) = [] :=
  (C9_loadSentCache_stale_or_failed_empty ["http://x"] 0 (49 * 60 * 60 * 1000)
    (by decide)).2.2

/-- C6 counterexample: ages 0.1h and 0.2h are distinct and both lie strictly
between 0 and 24 hours, yet both recency scores are 20 — the rounded score
is not strictly decreasing on (0, 24). -/
theorem C6_counterexample_rounding_plateau :
    (0 : ℚ) < ageHours 0 (-360000)
    ∧ ageHours 0 (-360000) < ageHours 0 (-720000)
    ∧ ageHours 0 (-720000) < 24
    ∧ recencyScore 0 (-360000) = recencyScore 0 (-720000)
    ∧ recencyScore 0 (-360000) = 20 := by
  refine ⟨by norm_num [ageHours], by norm_num [ageHours], by norm_num [ageHours], ?_, ?_⟩
  · rw [recencyScore, recencyScore]
    norm_num [ageHours, round_eq]
  · rw [recencyScore]
    norm_num [ageHours, round_eq]

/-- C6 (amended): the recency score equals `max(0, round(20 × (1 −
ageHours/24)))`; it is 20 at age 0, 0 at every age ≥ 24 hours, monotone
non-increasing in age, and the unrounded decay `20 × (1 − age/24)` is
strictly decreasing (the rounded score itself plateaus within a rounding
step, so it is non-increasing rather than strictly decreasing). -/
theorem C6_recencyScore_decay (now pub : ℤ) :
    recencyScore now pub = max 0 (round (20 * (1 - ageHours now pub / 24)))
    ∧ (ageHours now pub = 0 → recencyScore now pub = 20)
    ∧ (24 ≤ ageHours now pub → recencyScore now pub = 0)
    ∧ (∀ pub' : ℤ, pub' ≤ pub → recencyScore now pub' ≤ recencyScore now pub)
    ∧ (∀ a b : ℚ, a < b → 20 * (1 - b / 24) < 20 * (1 - a / 24)) := by
  refine ⟨?_, ?_, ?_, ?_, ?_⟩
  · rw [recencyScore, round_max_zero]
  · intro h
    rw [recencyScore, h]
    rw [show max (0:ℚ) (20 * (1 - 0 / 24)) = 20 by norm_num]
    exact round_twenty
  · intro h
    rw [recencyScore]
    rw [max_eq_left (by linarith), round_zero]
  · intro pub' h
    have hage : ageHours now pub ≤ ageHours now pub' := by
      rw [ageHours, ageHours]
      have hsub : ((now - pub : ℤ) : ℚ) ≤ ((now - pub' : ℤ) : ℚ) := by
        exact_mod_cast by omega
      have hpos : (0 : ℚ) ≤ 1000 * 60 * 60 := by norm_num
      exact div_le_div_of_nonneg_right hsub hpos
    rw [recencyScore, recencyScore]
    apply round_mono_rat
    apply max_le_max (le_refl 0)
    linarith
  · intro a b h
    linarith

/-- C6 witness: score 20 at age 0 and score 0 at age 48 hours. -/
theorem C6_witness :
    recencyScore 0 0 = 20 ∧ recencyScore 0 (-172800000) = 0 :=
  ⟨(C6_recencyScore_decay 0 0).2.1 (by norm_num [ageHours]),
   (C6_recencyScore_decay 0 (-172800000)).2.2.1 (by norm_num [ageHours])⟩

/-- C10 counterexample: a document 0.1 hours in the future scores exactly 20,
not strictly more than 20 — `round` absorbs small negative ages. -/
theorem C10_counterexample_future_score_not_above_20 :
    (0 : ℤ) < 360000 ∧ recencyScore 0 360000 = 20 := by
  refine ⟨by decide, ?_⟩
  rw [recencyScore]
  norm_num [ageHours, round_eq]

/-- C10 (amended): for a future-dated document (negative age) the `max 0`
clamp is inert, so the recency score is `round(20 × (1 − ageHours/24))`;
that score is at least 20 (equal to 20 for small offsets, by rounding) and
grows without bound as the timestamp moves further into the future; and
`rankNews`'s filter keeps such documents (its age test only rejects
`ageHours > maxAgeHours`). -/
theorem C10_future_documents_uncapped (now pub : ℤ) (h : now < pub) :
    recencyScore now pub = round (20 * (1 - ageHours now pub / 24))
    ∧ 20 ≤ recencyScore now pub
    ∧ (∀ B : ℤ, ∃ pubf : ℤ, now < pubf ∧ B < recencyScore now pubf)
    ∧ (∀ (sentCache : List String) (maxAgeHours : ℚ) (item : NewsItem),
        item.publishedAt = pub →
        sentCache.contains (normalizeUrl item.link) = false →
        item.link ≠ "" → 0 ≤ maxAgeHours →
        rankFilter sentCache now maxAgeHours item = true) := by
  have hage : ageHours now pub < 0 := by
    rw [ageHours]
    apply div_neg_of_neg_of_pos
    · exact_mod_cast by omega
    · norm_num
  have hinner : (20 : ℚ) ≤ 20 * (1 - ageHours now pub / 24) := by nlinarith
  refine ⟨?_, ?_, ?_, ?_⟩
  · rw [recencyScore, max_eq_right (by linarith)]
  · rw [recencyScore, max_eq_right (by linarith)]
    calc (20 : ℤ) = round (20 : ℚ) := round_twenty.symm
    _ ≤ _ := round_mono_rat hinner
  · intro B
    have hk : (0 : ℤ) ≤ (B.natAbs : ℤ) := Int.natCast_nonneg _
    refine ⟨now + ((B.natAbs : ℤ) + 1) * 86400000, by linarith, ?_⟩
    have hval : 20 * (1 - ageHours now (now + ((B.natAbs : ℤ) + 1) * 86400000) / 24)
        = ((20 * (1 + ((B.natAbs : ℤ) + 1)) : ℤ) : ℚ) := by
      rw [ageHours]
      have : ((now - (now + ((B.natAbs : ℤ) + 1) * 86400000) : ℤ) : ℚ)
          = -(((B.natAbs : ℤ) : ℚ) + 1) * 86400000 := by push_cast; ring
      rw [this]
      push_cast
      ring
    rw [recencyScore, hval]
    have hposv : (0 : ℚ) ≤ ((20 * (1 + ((B.natAbs : ℤ) + 1)) : ℤ) : ℚ) := by
      push_cast
      positivity
    rw [max_eq_right hposv, round_intCast]
    have hB : B ≤ (B.natAbs : ℤ) := Int.le_natAbs
    nlinarith [hk, hB]
  · intro sentCache maxAgeHours item hpub hc hlink hmax
    have hlt : ¬ (maxAgeHours < ageHours now item.publishedAt) := by
      rw [hpub]
      linarith
    have hnotmem : normalizeUrl item.link ∉ sentCache := by
      intro hmem
      rw [← list_contains_iff, hc] at hmem
      exact Bool.false_ne_true hmem
    simp [rankFilter, hlink, hlt, hnotmem]

/-- C10 witness: a document dated 48 hours in the future scores at least 20
(and equals `round` of the uncapped decay formula). -/
theorem C10_witness :
    (0 : ℤ) < 172800000 ∧ 20 ≤ recencyScore 0 172800000 :=
  ⟨by decide, (C10_future_documents_uncapped 0 172800000 (by decide)).2.1⟩

/-! ### Cross-feed score counts distinct corroborating sources (C5) -/

theorem list_contains_false_iff (l : List String) (w : String) :
    l.contains w = false ↔ w ∉ l := by
  constructor
  · intro h hm
    rw [← list_contains_iff, h] at hm
    exact Bool.false_ne_true hm
  · intro h
    cases hc : l.contains w with
    | false => rfl
    | true => exact absurd ((list_contains_iff l w).mp hc) h

theorem singleton_contains (a y : String) : ([a].contains y) = decide (y = a) := by
  by_cases h : y = a
  · rw [decide_eq_true h, (list_contains_iff [a] y).mpr (by simp [h])]
  · rw [decide_eq_false h, (list_contains_false_iff [a] y).mpr (by simp [h])]

theorem crossCountAux_eq_card (srcA : String) (kwA : List String) :
    ∀ (l : List NewsItem) (matched : List String) (acc : ℕ),
      srcA ∈ matched →
      crossCountAux srcA kwA l matched acc
        = acc + (((l.filter (fun j => !(matched.contains j.source)
            && decide (mkRat 4 10 ≤ kwSimilarity kwA j.title))).map
              (fun j => j.source)).toFinset).card := by
  intro l
  induction l with
  | nil => intro matched acc _; simp [crossCountAux]
  | cons j rest ih =>
    intro matched acc hsrc
    by_cases hskip : j.source = srcA ∨ matched.contains j.source = true
    · have hcont : matched.contains j.source = true := by
        rcases hskip with h | h
        · rw [h, list_contains_iff]
          exact hsrc
        · exact h
      have hstep : crossCountAux srcA kwA (j :: rest) matched acc
          = crossCountAux srcA kwA rest matched acc := by
        rw [crossCountAux, if_pos hskip]
      have hpj : (!(matched.contains j.source)
          && decide (mkRat 4 10 ≤ kwSimilarity kwA j.title)) = false := by
        rw [hcont]
        rfl
      rw [hstep, ih matched acc hsrc]
      simp only [List.filter_cons, hpj, Bool.false_eq_true, if_false]
    · have hne : ¬(j.source = srcA) := (not_or.mp hskip).1
      have hcont : matched.contains j.source = false := by
        cases hb : matched.contains j.source with
        | false => rfl
        | true => exact absurd hb (not_or.mp hskip).2
      by_cases hsim : mkRat 4 10 ≤ kwSimilarity kwA j.title
      · have hstep : crossCountAux srcA kwA (j :: rest) matched acc
            = crossCountAux srcA kwA rest (matched ++ [j.source]) (acc + 1) := by
          rw [crossCountAux, if_neg hskip, if_pos hsim]
        rw [hstep, ih (matched ++ [j.source]) (acc + 1)
          (List.mem_append.mpr (Or.inl hsrc))]
        have hpj : (!(matched.contains j.source)
            && decide (mkRat 4 10 ≤ kwSimilarity kwA j.title)) = true := by
          rw [hcont, decide_eq_true hsim]
          rfl
        rw [List.filter_cons, if_pos hpj, List.map_cons, List.toFinset_cons]
        have hS : ((rest.filter (fun x => !((matched ++ [j.source]).contains x.source)
              && decide (mkRat 4 10 ≤ kwSimilarity kwA x.title))).map
                (fun x => x.source)).toFinset
            = (((rest.filter (fun x => !(matched.contains x.source)
              && decide (mkRat 4 10 ≤ kwSimilarity kwA x.title))).map
                (fun x => x.source)).toFinset).erase j.source := by
          ext s
          simp only [List.mem_toFinset, List.mem_map, List.mem_filter,
            Bool.and_eq_true, Bool.not_eq_true', list_contains_false_iff,
            List.mem_append, List.mem_singleton, Finset.mem_erase, not_or]
          constructor
          · rintro ⟨x, ⟨hx, ⟨⟨hnm, hnj⟩, hsimx⟩⟩, rfl⟩
            exact ⟨hnj, x, ⟨hx, ⟨hnm, hsimx⟩⟩, rfl⟩
          · rintro ⟨hnj, x, ⟨hx, ⟨hnm, hsimx⟩⟩, rfl⟩
            exact ⟨x, ⟨hx, ⟨⟨hnm, hnj⟩, hsimx⟩⟩, rfl⟩
        rw [hS]
        have hins : insert j.source (((rest.filter (fun x => !(matched.contains x.source)
              && decide (mkRat 4 10 ≤ kwSimilarity kwA x.title))).map
                (fun x => x.source)).toFinset)
            = insert j.source ((((rest.filter (fun x => !(matched.contains x.source)
              && decide (mkRat 4 10 ≤ kwSimilarity kwA x.title))).map
                (fun x => x.source)).toFinset).erase j.source) := by
          ext s
          simp only [Finset.mem_insert, Finset.mem_erase]
          constructor
          · rintro (rfl | hs)
            · exact Or.inl rfl
            · by_cases hsj : s = j.source
              · exact Or.inl hsj
              · exact Or.inr ⟨hsj, hs⟩
          · rintro (rfl | ⟨_, hs⟩)
            · exact Or.inl rfl
            · exact Or.inr hs
        rw [hins, Finset.card_insert_of_not_mem (Finset.not_mem_erase _ _)]
        omega
      · have hstep : crossCountAux srcA kwA (j :: rest) matched acc
            = crossCountAux srcA kwA rest matched acc := by
          rw [crossCountAux, if_neg hskip, if_neg hsim]
        have hpj : (!(matched.contains j.source)
            && decide (mkRat 4 10 ≤ kwSimilarity kwA j.title)) = false := by
          rw [hcont, decide_eq_false hsim]
          rfl
        rw [hstep, ih matched acc hsrc]
        simp only [List.filter_cons, hpj, Bool.false_eq_true, if_false]

theorem crossFeedScoreOf_eq_card (items : List NewsItem) (item : NewsItem) :
    crossFeedScoreOf items item = crossFeedStep (corroboratingSources items item).card := by
  rw [crossFeedScoreOf,
    crossCountAux_eq_card item.source ((extractKeywords item.title).dedup)
      items [item.source] 0 (by simp)]
  rw [Nat.zero_add, corroboratingSources]
  have hf : items.filter (fun j => !([item.source].contains j.source)
        && decide (mkRat 4 10
            ≤ kwSimilarity ((extractKeywords item.title).dedup) j.title))
      = items.filter (fun j => !(decide (j.source = item.source))
        && decide (mkRat 4 10
            ≤ kwSimilarity ((extractKeywords item.title).dedup) j.title)) := by
    apply List.filter_congr
    intro x _
    rw [singleton_contains]
  rw [hf]

/-- C5: the cross-feed sub-score of document `i` is the `0/30/40/50` step of
the number of distinct other sources holding a document whose title-keyword
similarity with `i` (shared keywords over the size of `i`'s keyword set)
reaches `0.4`, each source counted at most once; the step is monotone
non-decreasing in that number and is `0` when no source reaches `0.4`. -/
theorem C5_crossFeed_score_by_corroborating_sources (items : List NewsItem)
    (i : ℕ) (h : i < items.length) :
    (computeCrossFeedScores items).getD i 0
      = crossFeedStep ((corroboratingSources items items[i]).card)
    ∧ (∀ a b : ℕ, a ≤ b → crossFeedStep a ≤ crossFeedStep b)
    ∧ ((corroboratingSources items items[i]).card = 0
        → (computeCrossFeedScores items).getD i 0 = 0) := by
  have hmain : (computeCrossFeedScores items).getD i 0
      = crossFeedStep ((corroboratingSources items items[i]).card) := by
    rw [computeCrossFeedScores, List.getD_eq_getElem?_getD, List.getElem?_map,
      List.getElem?_eq_getElem h]
    simp only [Option.map_some', Option.getD_some]
    exact crossFeedScoreOf_eq_card items items[i]
  refine ⟨hmain, ?_, ?_⟩
  · intro a b hab
    rw [crossFeedStep, crossFeedStep]
    split_ifs <;> omega
  · intro hz
    rw [hmain, hz]
    rfl

/-- C5 witness: in a two-item list from different sources with near-identical
titles, document 0 has one corroborating source and cross-feed score 30. -/
theorem C5_witness :
    (computeCrossFeedScores
        [⟨"bitcoin rally today", "", "a", 0, "", 0, ⟨0, 0, 0, 0, 0⟩⟩,
         ⟨"bitcoin rally continues", "", "b", 0, "", 0, ⟨0, 0, 0, 0, 0⟩⟩]).getD 0 0
      = crossFeedStep ((corroboratingSources
          [⟨"bitcoin rally today", "", "a", 0, "", 0, ⟨0, 0, 0, 0, 0⟩⟩,
           ⟨"bitcoin rally continues", "", "b", 0, "", 0, ⟨0, 0, 0, 0, 0⟩⟩]
          ⟨"bitcoin rally today", "", "a", 0, "", 0, ⟨0, 0, 0, 0, 0⟩⟩).card) :=
  (C5_crossFeed_score_by_corroborating_sources
    [⟨"bitcoin rally today", "", "a", 0, "", 0, ⟨0, 0, 0, 0, 0⟩⟩,
     ⟨"bitcoin rally continues", "", "b", 0, "", 0, ⟨0, 0, 0, 0, 0⟩⟩]
    0 (by decide)).1

/-! ### Diversified pick and rankNews (C1) -/

theorem diversifiedPickAux_spec (maxItems maxPerSource : ℕ) :
    ∀ (l result : List NewsItem) (sourceCount : String → ℕ),
      (∀ s, sourceCount s = (result.filter (fun x => x.source = s)).length) →
      (∀ s, (result.filter (fun x => x.source = s)).length ≤ maxPerSource) →
      result.length ≤ maxItems →
      (diversifiedPickAux maxItems maxPerSource result sourceCount l).length ≤ maxItems
      ∧ (∀ s, ((diversifiedPickAux maxItems maxPerSource result sourceCount l).filter
          (fun x => x.source = s)).length ≤ maxPerSource)
      ∧ (∀ x ∈ diversifiedPickAux maxItems maxPerSource result sourceCount l,
          x ∈ result ∨ x ∈ l) := by
  intro l
  induction l with
  | nil =>
    intro result sourceCount _ h2 h3
    exact ⟨h3, h2, fun x hx => Or.inl hx⟩
  | cons item rest ih =>
    intro result sourceCount h1 h2 h3
    by_cases hfull : maxItems ≤ result.length
    · rw [diversifiedPickAux, if_pos hfull]
      exact ⟨h3, h2, fun x hx => Or.inl hx⟩
    · rw [diversifiedPickAux, if_neg hfull]
      by_cases hsf : maxPerSource ≤ sourceCount item.source
      · rw [if_pos hsf]
        obtain ⟨g1, g2, g3⟩ := ih result sourceCount h1 h2 h3
        exact ⟨g1, g2, fun x hx => (g3 x hx).imp id (List.mem_cons_of_mem item)⟩
      · rw [if_neg hsf]
        have hfa : ∀ s, ((result ++ [item]).filter (fun x => x.source = s)).length
            = (result.filter (fun x => x.source = s)).length
              + (if item.source = s then 1 else 0) := by
          intro s
          rw [List.filter_append, List.length_append]
          congr 1
          by_cases hs : item.source = s
          · simp [hs]
          · simp [hs]
        have inv1 : ∀ s, (if s = item.source then sourceCount item.source + 1
              else sourceCount s)
            = ((result ++ [item]).filter (fun x => x.source = s)).length := by
          intro s
          rw [hfa s]
          by_cases hs : s = item.source
          · subst hs
            rw [if_pos rfl, if_pos rfl, h1 item.source]
          · rw [if_neg hs, h1 s, if_neg (fun he => hs he.symm)]
            omega
        have inv2 : ∀ s, ((result ++ [item]).filter
            (fun x => x.source = s)).length ≤ maxPerSource := by
          intro s
          rw [hfa s]
          by_cases hs : item.source = s
          · subst hs
            rw [if_pos rfl]
            have hcnt := h1 item.source
            omega
          · rw [if_neg hs]
            have := h2 s
            omega
        have inv3 : (result ++ [item]).length ≤ maxItems := by
          rw [List.length_append, List.length_singleton]
          omega
        obtain ⟨g1, g2, g3⟩ := ih (result ++ [item])
          (fun s => if s = item.source then sourceCount item.source + 1 else sourceCount s)
          inv1 inv2 inv3
        refine ⟨g1, g2, fun x hx => ?_⟩
        rcases g3 x hx with hx' | hx'
        · rcases List.mem_append.mp hx' with hr | hi
          · exact Or.inl hr
          · simp only [List.mem_singleton] at hi
            exact Or.inr (hi ▸ List.mem_cons_self item rest)
        · exact Or.inr (List.mem_cons_of_mem item hx')

theorem diversifiedPick_spec (sorted : List NewsItem) (maxItems : ℕ) :
    (diversifiedPick sorted maxItems).length ≤ maxItems
    ∧ (∀ s, ((diversifiedPick sorted maxItems).filter
        (fun x => x.source = s)).length ≤ 3)
    ∧ (∀ x ∈ diversifiedPick sorted maxItems, x ∈ sorted) := by
  obtain ⟨g1, g2, g3⟩ := diversifiedPickAux_spec maxItems 3 sorted [] (fun _ => 0)
    (fun s => rfl) (fun s => by simp) (by simp)
  refine ⟨g1, g2, fun x hx => ?_⟩
  rcases g3 x hx with hx' | hx'
  · exact absurd hx' (List.not_mem_nil x)
  · exact hx'

theorem mem_deduplicateBySimilarity {items : List NewsItem} {x : NewsItem}
    (hx : x ∈ deduplicateBySimilarity items) : x ∈ items := by
  rw [deduplicateBySimilarity] at hx
  by_cases h0 : items.length = 0
  · rw [if_pos h0] at hx
    exact absurd hx (List.not_mem_nil x)
  · rw [if_neg h0] at hx
    have hsub := greedyKeep_sublist dedupDup (items.mergeSort byScoreDesc)
    have : x ∈ items.mergeSort byScoreDesc := hsub.subset hx
    exact (List.mergeSort_perm items byScoreDesc).mem_iff.mp this

theorem rankFilter_contains_false {sentCache : List String} {now : ℤ}
    {maxAgeHours : ℚ} {item : NewsItem}
    (h : rankFilter sentCache now maxAgeHours item = true) :
    sentCache.contains (normalizeUrl item.link) = false := by
  cases hc : sentCache.contains (normalizeUrl item.link) with
  | false => rfl
  | true =>
    rw [rankFilter, if_pos hc] at h
    exact absurd h (by simp)

/-- C1: for every cache state, clock, input list, item cap and age cap, the
list returned by `rankNews` holds at most 3 items of any one source, at most
`maxItems` items, and no item whose normalized link is in the sent cache
loaded at the start of the call (the cache `loadSentCache` returns, which is
empty when stale). -/
theorem C1_rankNews_diverse_capped_unseen (st : CacheState) (now : ℤ)
    (items : List NewsItem) (maxItems : ℕ) (maxAgeHours : ℚ) :
    (rankNews st now items maxItems maxAgeHours).length ≤ maxItems
    ∧ (∀ s : String, ((rankNews st now items maxItems maxAgeHours).filter
        (fun x => x.source = s)).length ≤ 3)
    ∧ ((rankNews st now items maxItems maxAgeHours).all
        (fun x => !((loadSentCache st now).contains (normalizeUrl x.link)))) = true := by
  obtain ⟨g1, g2, g3⟩ := diversifiedPick_spec
    ((deduplicateBySimilarity
      (items.filter (rankFilter (loadSentCache st now) now maxAgeHours))).mergeSort
        byScoreDesc) maxItems
  refine ⟨g1, g2, ?_⟩
  rw [List.all_eq_true]
  intro x hx
  have hx1 : x ∈ (deduplicateBySimilarity
      (items.filter (rankFilter (loadSentCache st now) now maxAgeHours))).mergeSort
        byScoreDesc := g3 x hx
  have hx2 : x ∈ deduplicateBySimilarity
      (items.filter (rankFilter (loadSentCache st now) now maxAgeHours)) :=
    (List.mergeSort_perm _ byScoreDesc).mem_iff.mp hx1
  have hx3 := mem_deduplicateBySimilarity hx2
  have hfilt := (List.mem_filter.mp hx3).2
  rw [rankFilter_contains_false hfilt]
  rfl

/-! ### Social lookups: top-20 gating and failure safety (C8) -/

theorem socialScores_find_none (social : String → Option ℕ) (now : ℤ)
    (items : List NewsItem) (i : ℕ) (h : i < items.length)
    (hcase : i ∉ topCandidateIdx now items ∨ social items[i].link = none) :
    (socialScores social now items).find? (fun p => p.1 = i) = none := by
  cases hf : (socialScores social now items).find? (fun p => p.1 = i) with
  | none => rfl
  | some p =>
    exfalso
    have hp := List.find?_some hf
    have hmem := List.mem_of_find?_eq_some hf
    rw [socialScores] at hmem
    obtain ⟨j, hj, hjp⟩ := List.mem_filterMap.mp hmem
    cases hij : items[j]? with
    | none =>
      rw [hij] at hjp
      exact Option.noConfusion hjp
    | some itj =>
      rw [hij] at hjp
      simp only [Option.map_eq_some'] at hjp
      obtain ⟨s, hss, hps⟩ := hjp
      have hpi : p.1 = i := by simpa using hp
      rw [← hps] at hpi
      simp only at hpi
      subst hpi
      rcases hcase with hnot | hnone
      · exact hnot hj
      · rw [List.getElem?_eq_getElem h] at hij
        rw [Option.some.inj hij] at hnone
        rw [hnone] at hss
        exact Option.noConfusion hss

/-- C8: `computeRelevance` scores every input document and returns — as a
permutation (the final score-descending in-place sort) — the enrichment in
which document `i` outside the top-20 pre-score candidates gets social
sub-score 0, and a top-20 document whose social lookup fails (rejected
promise) also gets social sub-score 0; no failure aborts the batch or the
run. -/
theorem C8_social_top20_only_and_failure_gives_zero
    (social : String → Option ℕ) (now : ℤ) (items : List NewsItem)
    (i : ℕ) (h : i < items.length) :
    (computeRelevance social now items).length = items.length
    ∧ (computeRelevance social now items).Perm (enrichedItems social now items)
    ∧ (∀ itemR, (enrichedItems social now items)[i]? = some itemR →
        ((i ∉ topCandidateIdx now items → itemR.scoreBreakdown.socialScore = 0)
         ∧ (social items[i].link = none → itemR.scoreBreakdown.socialScore = 0))) := by
  have hne : ¬ items.length = 0 := by omega
  have hperm : (computeRelevance social now items).Perm
      (enrichedItems social now items) := by
    rw [computeRelevance, if_neg hne]
    exact List.mergeSort_perm _ byScoreDesc
  refine ⟨?_, hperm, ?_⟩
  · rw [hperm.length_eq, enrichedItems]
    simp [List.length_mapIdx]
  · intro itemR hR
    rw [enrichedItems] at hR
    rw [List.getElem?_mapIdx, List.getElem?_eq_getElem h] at hR
    simp only [Option.map_some'] at hR
    obtain rfl := Option.some.inj hR
    constructor
    · intro hnot
      rw [socialScores_find_none social now items i h (Or.inl hnot)]
    · intro hnone
      rw [socialScores_find_none social now items i h (Or.inr hnone)]

/-- C8 witness: with every social lookup failing, the run still scores the
whole (singleton) batch. -/
theorem C8_witness :
    (computeRelevance (fun _ => none) 0
        [⟨"t", "http://a", "s", 0, "", 0, ⟨0, 0, 0, 0, 0⟩⟩]).length
      = [(⟨"t", "http://a", "s", 0, "", 0, ⟨0, 0, 0, 0, 0⟩⟩ : NewsItem)].length :=
  (C8_social_top20_only_and_failure_gives_zero (fun _ => none) 0
    [⟨"t", "http://a", "s", 0, "", 0, ⟨0, 0, 0, 0, 0⟩⟩] 0 (by decide)).1
